import Mathlib

/-!
Shallow embedding of the lifecycle orchestrator of sprockets.http
(src/sprockets/http/app.py, src/sprockets/http/runner.py,
src/sprockets/http/__init__.py), together with proofs about its shutdown
coordinator, callback iteration, settings handling and runner construction.

The shutdown coordinator (`_ShutdownHandler` in app.py) is embedded as an
explicit state (`WaiterState`) plus a small-step event relation (`LoopStep`)
over the single-threaded IOLoop execution model: the environment may deliver
a registered future's completion callback, fire a scheduled `_maybe_stop`
timeout, or let time advance.  The projections of the Python object
(`pending_callbacks`, `__deadline`, `shutdown_limit`, `wait_timeout`) are
fields of the state; in addition the state tracks the completion callbacks
not yet delivered (`unresolved`), the scheduled `_maybe_stop` timeouts
(`timers`), and how many times `io_loop.stop()` has been invoked (`stops`).
IOLoop times are modelled as integers.
-/

namespace SprocketsHttp

/-- What a shutdown callback does when `CallbackManager.stop` invokes it
(app.py line 135): raise synchronously, return a plain value, return a
coroutine (wrapped by `create_task` into a task, which is a future), or
return a future. -/
inductive ShutdownCallbackResult where
  | raises
  | plain
  | coro
  | future
deriving Repr, DecidableEq

/-- Whether the returned value passes the `concurrent.is_future` test in
`CallbackManager.stop` (after the `asyncio.iscoroutine` wrapping) and is
therefore registered with the shutdown handler via `add_future`. -/
def isDeferred : ShutdownCallbackResult → Bool
  | .raises => false
  | .plain => false
  | .coro => true
  | .future => true

/-- The state of one `_ShutdownHandler` instance (app.py lines 10-57)
embedded in the IOLoop execution model.  `pending_callbacks`,
`shutdown_limit`, `wait_timeout` and `deadline` (the Python `__deadline`,
`none` until `on_shutdown_ready` runs) are the object's attributes;
`unresolved` counts the registered futures whose completion callback the
loop has not yet delivered, `timers` holds the deadlines of scheduled
`_maybe_stop` timeouts, `stops` counts `io_loop.stop()` invocations and
`now` is the loop clock. -/
structure WaiterState where
  pending_callbacks : Int
  deadline : Option Int
  unresolved : Nat
  timers : List Int
  stops : Nat
  now : Int
  shutdown_limit : Int
  wait_timeout : Int
deriving Repr, DecidableEq

/-- `_ShutdownHandler._maybe_stop` (app.py lines 45-52), invoked while
`__deadline = d`: compute `now`; if `now < deadline and all_tasks`,
schedule another `_maybe_stop` at `now + wait_timeout`; otherwise invoke
`io_loop.stop()`.  `tasks` is the truthiness of `self._all_tasks()`. -/
def maybe_stop (s : WaiterState) (d : Int) (tasks : Bool) : WaiterState :=
  if s.now < d ∧ tasks = true then
    { s with timers := s.timers ++ [s.now + s.wait_timeout] }
  else
    { s with stops := s.stops + 1 }

/-- `_ShutdownHandler.on_shutdown_ready` (app.py lines 40-43): set
`__deadline = io_loop.time() + shutdown_limit` and run `_maybe_stop`. -/
def on_shutdown_ready (s : WaiterState) (tasks : Bool) : WaiterState :=
  maybe_stop { s with deadline := some (s.now + s.shutdown_limit) }
    (s.now + s.shutdown_limit) tasks

/-- `_ShutdownHandler.on_shutdown_future_complete` (app.py lines 25-38):
decrement `pending_callbacks`; when `not self.pending_callbacks` (the
decremented value is zero), run `on_shutdown_ready`.  Delivering the
callback also consumes one of the `unresolved` completion notifications. -/
def on_shutdown_future_complete (s : WaiterState) (tasks : Bool) : WaiterState :=
  let s1 := { s with pending_callbacks := s.pending_callbacks - 1,
                     unresolved := s.unresolved - 1 }
  if s1.pending_callbacks = 0 then on_shutdown_ready s1 tasks else s1

/-- The IOLoop dispatching a scheduled `_maybe_stop` timeout `T` (enabled
once the loop clock has reached `T`): the timeout is consumed and
`_maybe_stop` runs against the current deadline `d`. -/
def fire_timer (s : WaiterState) (T d : Int) (tasks : Bool) : WaiterState :=
  maybe_stop { s with timers := s.timers.erase T } d tasks

/-- One step of the single-threaded IOLoop around a `_ShutdownHandler`:
time advances, a registered shutdown future's completion callback is
delivered, or a scheduled `_maybe_stop` timeout fires.  `tasks` (the
truthiness of `_all_tasks()`) is observed from the environment at each
`_maybe_stop` run. -/
inductive LoopStep : WaiterState → WaiterState → Prop where
  | advance (s : WaiterState) (dt : Nat) :
      LoopStep s { s with now := s.now + (dt : Int) }
  | complete (s : WaiterState) (tasks : Bool) (h : 0 < s.unresolved) :
      LoopStep s (on_shutdown_future_complete s tasks)
  | timer (s : WaiterState) (T d : Int) (tasks : Bool) (hT : T ∈ s.timers)
      (hnow : T ≤ s.now) (hd : s.deadline = some d) :
      LoopStep s (fire_timer s T d tasks)

/-- Reachability in the IOLoop execution model. -/
inductive Reach : WaiterState → WaiterState → Prop where
  | refl (s : WaiterState) : Reach s s
  | tail {s t u : WaiterState} : Reach s t → LoopStep t u → Reach s u

/-- The `try` body of one iteration of `CallbackManager.stop`'s loop
(app.py lines 134-143): invoking the callback either raises (`error`) or
yields a value; `ok true` means the value passed `is_future` (after
coroutine wrapping) and was registered with `add_future`. -/
def shutdown_callback_body : ShutdownCallbackResult → Except String Bool
  | .raises => .error "exception raised from shutdown callback"
  | .plain => .ok false
  | .coro => .ok true
  | .future => .ok true

/-- The observable record of `CallbackManager.stop`'s callback loop:
which callbacks were invoked (by position, in order) and which were logged
at warning severity by the `except` clause. -/
structure StopTrace where
  invoked : List Nat
  warnings : List Nat
deriving Repr, DecidableEq

/-- The callback loop of `CallbackManager.stop` (app.py lines 133-147),
started at position `i`: returns the trace, the number of futures
registered through `add_future` (each increments `pending_callbacks`),
and the final `running_async` flag. -/
def run_shutdown_callbacks : Nat → List ShutdownCallbackResult → StopTrace × Nat × Bool
  | _, [] => (⟨[], []⟩, 0, false)
  | i, b :: rest =>
    let r := run_shutdown_callbacks (i + 1) rest
    match shutdown_callback_body b with
    | .error _ => (⟨i :: r.1.invoked, i :: r.1.warnings⟩, r.2.1, r.2.2)
    | .ok false => (⟨i :: r.1.invoked, r.1.warnings⟩, r.2.1, r.2.2)
    | .ok true => (⟨i :: r.1.invoked, r.1.warnings⟩, r.2.1 + 1, true)

/-- `CallbackManager.stop` (app.py lines 115-150): construct a fresh
`_ShutdownHandler`, run every `shutdown` callback through the
`try`/`except` loop, and when `running_async` is false invoke
`on_shutdown_ready` synchronously before returning.  `now` is
`io_loop.time()` at the call, `tasks` the `_all_tasks()` observation of a
synchronous `_maybe_stop` run. -/
def CallbackManager.stop (cbs : List ShutdownCallbackResult)
    (now shutdown_limit wait_timeout : Int) (tasks : Bool) :
    StopTrace × WaiterState :=
  let r := run_shutdown_callbacks 0 cbs
  let shutdown : WaiterState :=
    { pending_callbacks := (r.2.1 : Int), deadline := none, unresolved := r.2.1,
      timers := [], stops := 0, now := now,
      shutdown_limit := shutdown_limit, wait_timeout := wait_timeout }
  if r.2.2 = false then (r.1, on_shutdown_ready shutdown tasks) else (r.1, shutdown)

/-- Positions (from `i`) of the callbacks that raise synchronously. -/
def raiser_indices : Nat → List ShutdownCallbackResult → List Nat
  | _, [] => []
  | i, .raises :: rest => i :: raiser_indices (i + 1) rest
  | i, .plain :: rest => raiser_indices (i + 1) rest
  | i, .coro :: rest => raiser_indices (i + 1) rest
  | i, .future :: rest => raiser_indices (i + 1) rest

/-- The invariant of the `_ShutdownHandler` execution model: the pending
count mirrors the undelivered completion callbacks; before the count hits
zero no deadline has been set, no `_maybe_stop` timeout exists and the
loop has not been stopped; once it hits zero exactly one trigger is live
(a scheduled `_maybe_stop` timeout, or the one `io_loop.stop()` already
issued). -/
def WaiterInv (s : WaiterState) : Prop :=
  s.pending_callbacks = (s.unresolved : Int) ∧
  (s.pending_callbacks ≠ 0 →
    s.stops = 0 ∧ s.timers = [] ∧ s.deadline = none) ∧
  (s.pending_callbacks = 0 → s.stops + s.timers.length = 1)

/-! ## Runner.run's before_run loop (src/sprockets/http/runner.py) -/

/-- Whether a `before_run` callback raises when `Runner.run` invokes it. -/
inductive BeforeRunResult where
  | ok
  | raises
deriving Repr, DecidableEq

/-- The observable record of `Runner.run`'s `before_run` loop (runner.py
lines 128-135): the callbacks invoked (by position, in order), the
position logged at error severity, whether `self._shutdown()` ran, and
the `sys.exit` status. -/
structure RunnerRunTrace where
  invoked : List Nat
  error_logged : Option Nat
  shutdown_called : Bool
  exit_code : Option Nat
deriving Repr, DecidableEq

/-- `Runner.run`'s `before_run` loop (runner.py lines 128-135), started
at position `i`: each callback is invoked in order; on the first raise
the error is logged, `self._shutdown()` runs and `sys.exit(70)` raises
`SystemExit`, so nothing after it is invoked. -/
def Runner.run_before_run : Nat → List BeforeRunResult → RunnerRunTrace
  | _, [] => ⟨[], none, false, none⟩
  | i, BeforeRunResult.ok :: rest =>
    let t := Runner.run_before_run (i + 1) rest
    ⟨i :: t.invoked, t.error_logged, t.shutdown_called, t.exit_code⟩
  | i, BeforeRunResult.raises :: _ => ⟨[i], some i, true, some 70⟩

/-! ## sprockets.http.run's settings handling (src/sprockets/http/__init__.py)

Python dictionaries are mutable objects: to state that `run` never mutates
the caller's `settings` dictionary, dictionaries live in an explicit heap
and `settings.copy()` allocates a fresh one. -/

/-- A Python value as far as `run`'s settings handling distinguishes them. -/
inductive PyVal where
  | pyStr : String → PyVal
  | pyInt : Int → PyVal
  | pyBool : Bool → PyVal
deriving Repr, DecidableEq

/-- A Python dict as an ordered association list (unique keys). -/
abbrev PyDict := List (String × PyVal)

/-- `d[k]` / `d.get(k)`. -/
def dict_get : PyDict → String → Option PyVal
  | [], _ => none
  | p :: rest, k => if p.1 = k then some p.2 else dict_get rest k

/-- `d[k] = v`: replace the binding in place, or append a new one. -/
def dict_set : PyDict → String → PyVal → PyDict
  | [], k, v => [(k, v)]
  | p :: rest, k, v => if p.1 = k then (k, v) :: rest else p :: dict_set rest k v

/-- Removal of a key, as `pop` performs it. -/
def dict_erase : PyDict → String → PyDict
  | [], _ => []
  | p :: rest, k => if p.1 = k then dict_erase rest k else p :: dict_erase rest k

/-- `d.pop(k, dflt)`: the value (or the default) and the dict without `k`. -/
def dict_pop (d : PyDict) (k : String) (dflt : PyVal) : PyVal × PyDict :=
  match dict_get d k with
  | some v => (v, dict_erase d k)
  | none => (dflt, d)

/-- `int(x)` on a settings value: identity on ints, 0/1 on bools, parse on
strings (`none` models the `ValueError`). -/
def py_int_of : PyVal → Option Int
  | .pyInt n => some n
  | .pyBool b => some (if b then 1 else 0)
  | .pyStr s => s.toInt?

/-- `bool(x)` on a settings value. -/
def py_truthy : PyVal → Bool
  | .pyInt n => n != 0
  | .pyBool b => b
  | .pyStr s => s != ""

/-- A heap of Python dict objects; references are indices. -/
structure Heap where
  dicts : List PyDict
deriving Repr, DecidableEq

/-- Dereference. -/
def Heap.read (h : Heap) (r : Nat) : PyDict := h.dicts.getD r []

/-- In-place mutation of the object behind `r`. -/
def Heap.write (h : Heap) (r : Nat) (d : PyDict) : Heap := ⟨h.dicts.set r d⟩

/-- Allocation of a fresh dict object. -/
def Heap.alloc (h : Heap) (d : PyDict) : Heap × Nat :=
  (⟨h.dicts ++ [d]⟩, h.dicts.length)

/-- A sample caller settings dict, used to exercise `sprockets_http_run`
at a concrete input. -/
def sample_settings_heap : Heap :=
  ⟨[[("debug", PyVal.pyInt 2), ("port", PyVal.pyStr "9000"),
     ("extra", PyVal.pyStr "y")]]⟩

/-- The outcome of `sprockets.http.run` up to the `create_application`
call: the final heap, the kwargs `create_application` received (`none`
when an `int()` conversion raised first), and the port/process counts. -/
structure RunOutcome where
  heap : Heap
  app_kwargs : Option PyDict
  port_number : Option Int
  number_of_procs : Option Int
deriving Repr, DecidableEq

/-- `sprockets.http.run` (src/sprockets/http/__init__.py lines 77-94) up
to the `create_application(**app_settings)` call: copy the caller's
settings (or start from `{}`), force `debug` to a bool (consulting the
`DEBUG` environment variable for the default), pop `port` (default from
`PORT` or 8000) and `number_of_procs` (default `'0'`) off the copy, and
pass the copy as kwargs.  `settings` is a heap reference; the logging
configuration and the server start are outside this embedding. -/
def sprockets_http_run (h0 : Heap) (settings : Option Nat)
    (envDEBUG : Option String) (envPORT : Option String) : RunOutcome :=
  let a :=
    match settings with
    | none => h0.alloc []
    | some r => h0.alloc (h0.read r)
  let h1 := a.1
  let aref := a.2
  let debug_env : Option Int :=
    match envDEBUG with
    | none => some 0
    | some s => s.toInt?
  match debug_env with
  | none => { heap := h1, app_kwargs := none, port_number := none, number_of_procs := none }
  | some dbg =>
    let debug_mode : Bool :=
      match dict_get (h1.read aref) "debug" with
      | some v => py_truthy v
      | none => decide (dbg ≠ 0)
    let h2 := h1.write aref (dict_set (h1.read aref) "debug" (PyVal.pyBool debug_mode))
    let port_default : PyVal :=
      match envPORT with
      | some s => PyVal.pyStr s
      | none => PyVal.pyInt 8000
    let pp := dict_pop (h2.read aref) "port" port_default
    let h3 := h2.write aref pp.2
    match py_int_of pp.1 with
    | none => { heap := h3, app_kwargs := none, port_number := none, number_of_procs := none }
    | some port_number =>
      let np := dict_pop (h3.read aref) "number_of_procs" (PyVal.pyStr "0")
      let h4 := h3.write aref np.2
      match py_int_of np.1 with
      | none => { heap := h4, app_kwargs := none, port_number := some port_number,
                  number_of_procs := none }
      | some procs =>
        { heap := h4, app_kwargs := some (h4.read aref), port_number := some port_number,
          number_of_procs := some procs }

/-! ## Runner.__init__'s callback wiring (src/sprockets/http/runner.py) -/

/-- The application's `runner_callbacks` dict: callback lists (as lists of
callback identifiers) keyed by phase name. -/
abbrev CallbackDict := List (String × List Nat)

/-- Lookup in a `runner_callbacks` dict. -/
def cb_get : CallbackDict → String → Option (List Nat)
  | [], _ => none
  | p :: rest, k => if p.1 = k then some p.2 else cb_get rest k

/-- `d.setdefault(k, v)`: keep an existing binding, otherwise append one. -/
def cb_setdefault (d : CallbackDict) (k : String) (v : List Nat) : CallbackDict :=
  match cb_get d k with
  | some _ => d
  | none => d ++ [(k, v)]

/-- `Runner.__init__`'s callback wiring (runner.py lines 61-73): when the
application has a `runner_callbacks` attribute (`some d`), `setdefault`
each of the three phases with the constructor argument (`x or []`); when
the attribute access raises `AttributeError` (`none`), attach a fresh
dict holding exactly the three phases. -/
def Runner.init_callbacks (app_cb : Option CallbackDict)
    (before_run on_start shutdown : Option (List Nat)) : CallbackDict :=
  match app_cb with
  | some d =>
    cb_setdefault
      (cb_setdefault (cb_setdefault d "before_run" (before_run.getD []))
        "on_start" (on_start.getD []))
      "shutdown" (shutdown.getD [])
  | none =>
    [("before_run", before_run.getD []), ("on_start", on_start.getD []),
     ("shutdown", shutdown.getD [])]

/-! ## The ReadinessGate (modelled from the spec) -/

/-- Modelled from the spec: the ReadinessGate and the transport-layer
dispatch path that consults it are not code under src/.  "A boolean-like
latch, cleared when shutdown starts, set once all post-start callbacks
have been scheduled (immediately if there are none)." -/
structure ReadinessGate where
  isSet : Bool
deriving Repr, DecidableEq

/-- Modelled from the spec: the fixed response of a request dispatched
through the transport layer — status, body, and whether application
routing was reached. -/
structure GateDispatch where
  status : Nat
  body : String
  routed : Bool
deriving Repr, DecidableEq

/-- Modelled from the spec: "requests dispatched before the ReadinessGate
is set receive a fixed unavailable response (status 503, empty body)
without reaching application routing; requests after gate-set reach
normal routing."  `route_status`/`route_body` stand for whatever the
application's routing would answer. -/
def dispatch_request (g : ReadinessGate) (route_status : Nat) (route_body : String) :
    GateDispatch :=
  if g.isSet then ⟨route_status, route_body, true⟩ else ⟨503, "", false⟩

/-- Modelled from the spec: scheduling the post-start callbacks sets the
gate once all of them have been scheduled — immediately when the list is
empty.  Returns the gate and the scheduled callbacks. -/
def schedule_post_start (_g : ReadinessGate) (cbs : List Nat) : ReadinessGate × List Nat :=
  (⟨true⟩, cbs)

/-- Modelled from the spec: the gate is cleared when shutdown starts. -/
def begin_shutdown (_g : ReadinessGate) : ReadinessGate := ⟨false⟩

/-! ## Theorems: the shutdown waiter -/

theorem waiterInv_maybe_stop {s : WaiterState} (d : Int) (tasks : Bool)
    (h1 : s.pending_callbacks = (s.unresolved : Int))
    (hp : s.pending_callbacks = 0) (hs : s.stops = 0) (ht : s.timers = []) :
    WaiterInv (maybe_stop s d tasks) := by
  unfold maybe_stop
  split
  · refine ⟨h1, fun hne => absurd hp hne, fun _ => ?_⟩
    simp [ht, hs]
  · refine ⟨h1, fun hne => absurd hp hne, fun _ => ?_⟩
    simp [ht, hs]

theorem waiterInv_step {s t : WaiterState} (h : WaiterInv s) (hst : LoopStep s t) :
    WaiterInv t := by
  obtain ⟨h1, h2, h3⟩ := h
  cases hst with
  | advance dt =>
    exact ⟨h1, h2, h3⟩
  | complete tasks hu =>
    have hpend : s.pending_callbacks ≠ 0 := by
      rw [h1]; omega
    obtain ⟨hs0, ht0, hdl0⟩ := h2 hpend
    by_cases hif : s.pending_callbacks - 1 = 0
    · have hres : on_shutdown_future_complete s tasks =
          on_shutdown_ready { s with pending_callbacks := s.pending_callbacks - 1,
                                     unresolved := s.unresolved - 1 } tasks := by
        simp [on_shutdown_future_complete, hif]
      rw [hres, on_shutdown_ready]
      apply waiterInv_maybe_stop
      · show s.pending_callbacks - 1 = ((s.unresolved - 1 : Nat) : Int)
        omega
      · exact hif
      · exact hs0
      · exact ht0
    · have hres : on_shutdown_future_complete s tasks =
          { s with pending_callbacks := s.pending_callbacks - 1,
                   unresolved := s.unresolved - 1 } := by
        simp [on_shutdown_future_complete, hif]
      rw [hres]
      refine ⟨?_, fun _ => ⟨hs0, ht0, hdl0⟩, fun hc => absurd hc hif⟩
      show s.pending_callbacks - 1 = ((s.unresolved - 1 : Nat) : Int)
      omega
  | timer T d tasks hT hnow hd =>
    have htne : s.timers ≠ [] := List.ne_nil_of_mem hT
    have hpend : s.pending_callbacks = 0 := by
      by_contra hc
      exact htne (h2 hc).2.1
    have hsum := h3 hpend
    have hlen : 0 < s.timers.length := List.length_pos.mpr htne
    have hs0 : s.stops = 0 := by omega
    have hl1 : s.timers.length = 1 := by omega
    have herase : (s.timers.erase T).length = 0 := by
      rw [List.length_erase_of_mem hT, hl1]
    unfold fire_timer maybe_stop
    split
    · refine ⟨h1, fun hne => absurd hpend hne, fun _ => ?_⟩
      simp [hs0, herase]
    · refine ⟨h1, fun hne => absurd hpend hne, fun _ => ?_⟩
      simp [hs0, herase]

theorem waiterInv_reach {s t : WaiterState} (h : WaiterInv s) (hr : Reach s t) :
    WaiterInv t := by
  induction hr with
  | refl => exact h
  | tail _ hstep ih => exact waiterInv_step ih hstep

theorem run_shutdown_callbacks_invoked (i : Nat) (cbs : List ShutdownCallbackResult) :
    (run_shutdown_callbacks i cbs).1.invoked = List.range' i cbs.length := by
  induction cbs generalizing i with
  | nil => simp [run_shutdown_callbacks]
  | cons b rest ih =>
    cases b <;>
      simp [run_shutdown_callbacks, shutdown_callback_body, ih, List.range'_succ]

theorem run_shutdown_callbacks_warnings (i : Nat) (cbs : List ShutdownCallbackResult) :
    (run_shutdown_callbacks i cbs).1.warnings = raiser_indices i cbs := by
  induction cbs generalizing i with
  | nil => simp [run_shutdown_callbacks, raiser_indices]
  | cons b rest ih =>
    cases b <;>
      simp [run_shutdown_callbacks, shutdown_callback_body, raiser_indices, ih]

theorem run_shutdown_callbacks_registered (i : Nat) (cbs : List ShutdownCallbackResult) :
    (run_shutdown_callbacks i cbs).2.1 = cbs.countP (fun b => isDeferred b) := by
  induction cbs generalizing i with
  | nil => simp [run_shutdown_callbacks]
  | cons b rest ih =>
    cases b <;>
      simp [run_shutdown_callbacks, shutdown_callback_body, isDeferred, ih,
        List.countP_cons]

theorem run_shutdown_callbacks_async (i : Nat) (cbs : List ShutdownCallbackResult) :
    (run_shutdown_callbacks i cbs).2.2 = true ↔
      (run_shutdown_callbacks i cbs).2.1 ≠ 0 := by
  induction cbs generalizing i with
  | nil => simp [run_shutdown_callbacks]
  | cons b rest ih =>
    cases b <;>
      simp [run_shutdown_callbacks, shutdown_callback_body, ih]

theorem stop_establishes_waiterInv (cbs : List ShutdownCallbackResult)
    (now limit wt : Int) (tasks : Bool) :
    WaiterInv (CallbackManager.stop cbs now limit wt tasks).2 := by
  by_cases hb : (run_shutdown_callbacks 0 cbs).2.2 = false
  · have hreg : (run_shutdown_callbacks 0 cbs).2.1 = 0 := by
      by_contra hc
      have htrue := (run_shutdown_callbacks_async 0 cbs).mpr hc
      rw [htrue] at hb
      cases hb
    simp only [CallbackManager.stop, hb]
    rw [if_pos trivial, on_shutdown_ready]
    apply waiterInv_maybe_stop
    · simp
    · simp [hreg]
    · rfl
    · rfl
  · have hb' : (run_shutdown_callbacks 0 cbs).2.2 = true := by
      revert hb
      cases (run_shutdown_callbacks 0 cbs).2.2 <;> simp
    have hreg : (run_shutdown_callbacks 0 cbs).2.1 ≠ 0 :=
      (run_shutdown_callbacks_async 0 cbs).mp hb'
    simp only [CallbackManager.stop, hb']
    rw [if_neg (by simp)]
    exact ⟨rfl, fun _ => ⟨rfl, rfl, rfl⟩,
      fun hc => absurd (Nat.cast_eq_zero.mp hc) hreg⟩

/-- C2: in the single-threaded IOLoop execution model, however the
completion callbacks (`on_shutdown_future_complete`) and the `_maybe_stop`
poll ticks interleave after a `CallbackManager.stop` call, `io_loop.stop()`
is invoked at most once per `_ShutdownHandler` instance — a repeated
trigger can never materialise — and in any run that has delivered every
completion callback and drained every scheduled poll timeout it has been
invoked exactly once. -/
theorem stop_primitive_fires_exactly_once
    (cbs : List ShutdownCallbackResult) (now limit wt : Int) (tasks : Bool)
    (s : WaiterState)
    (h : Reach (CallbackManager.stop cbs now limit wt tasks).2 s) :
    s.stops ≤ 1 ∧ (s.unresolved = 0 → s.timers = [] → s.stops = 1) := by
  obtain ⟨h1, h2, h3⟩ :=
    waiterInv_reach (stop_establishes_waiterInv cbs now limit wt tasks) h
  constructor
  · by_cases hp : s.pending_callbacks = 0
    · have := h3 hp
      omega
    · have := (h2 hp).1
      omega
  · intro hu ht
    have hp : s.pending_callbacks = 0 := by rw [h1, hu]; rfl
    have hsum := h3 hp
    rw [ht] at hsum
    simpa using hsum

theorem stop_primitive_fires_exactly_once_witness :
    (CallbackManager.stop [] 0 5 1 false).2.stops ≤ 1 ∧
      ((CallbackManager.stop [] 0 5 1 false).2.unresolved = 0 →
        (CallbackManager.stop [] 0 5 1 false).2.timers = [] →
        (CallbackManager.stop [] 0 5 1 false).2.stops = 1) :=
  stop_primitive_fires_exactly_once [] 0 5 1 false _ (Reach.refl _)

/-- C1: evaluation of the code at the claim's scenario.  In every state
reachable from a `CallbackManager.stop` call, as long as any registered
shutdown future is still unresolved (in particular, forever, when one
never resolves) the handler's deadline has never been set and
`io_loop.stop()` has never been invoked: `on_shutdown_ready` — the only
code that sets `__deadline` and starts `_maybe_stop` — only runs once
`pending_callbacks` reaches zero, so the claimed deadline-bound stop
never happens. -/
theorem never_resolving_handle_never_stops
    (cbs : List ShutdownCallbackResult) (now limit wt : Int) (tasks : Bool)
    (s : WaiterState)
    (h : Reach (CallbackManager.stop cbs now limit wt tasks).2 s)
    (hu : 0 < s.unresolved) :
    s.stops = 0 ∧ s.deadline = none := by
  obtain ⟨h1, h2, h3⟩ :=
    waiterInv_reach (stop_establishes_waiterInv cbs now limit wt tasks) h
  have hp : s.pending_callbacks ≠ 0 := by
    rw [h1]
    omega
  exact ⟨(h2 hp).1, (h2 hp).2.2⟩

theorem never_resolving_handle_never_stops_witness :
    (CallbackManager.stop [ShutdownCallbackResult.future] 0 5 1 true).2.stops = 0 ∧
      (CallbackManager.stop [ShutdownCallbackResult.future] 0 5 1 true).2.deadline = none :=
  never_resolving_handle_never_stops [ShutdownCallbackResult.future] 0 5 1 true _
    (Reach.refl _) (by decide)

theorem stop_trace_eq (cbs : List ShutdownCallbackResult)
    (now limit wt : Int) (tasks : Bool) :
    (CallbackManager.stop cbs now limit wt tasks).1 =
      (run_shutdown_callbacks 0 cbs).1 := by
  simp only [CallbackManager.stop]
  split <;> rfl

/-- C3: the `try`/`except` around each shutdown callback isolates a
synchronous raise: the raising callback is logged at warning severity by
position (`warnings`), every remaining callback is still invoked — the
invocation log always covers all positions in order — and
`CallbackManager.stop` returns normally for every combination of callback
behaviours (it is a total function; no `error` of the per-callback
`Except` escapes the loop). -/
theorem stop_isolates_callback_failures (cbs : List ShutdownCallbackResult)
    (now limit wt : Int) (tasks : Bool) :
    (CallbackManager.stop cbs now limit wt tasks).1.invoked =
        List.range cbs.length ∧
      (CallbackManager.stop cbs now limit wt tasks).1.warnings =
        raiser_indices 0 cbs := by
  rw [stop_trace_eq, run_shutdown_callbacks_invoked,
    run_shutdown_callbacks_warnings, List.range_eq_range']
  exact ⟨rfl, rfl⟩

/-- C5: `CallbackManager.stop` invokes every shutdown callback exactly
once (the invocation log is exactly the list of positions, in order), and
after the iteration the handler's `pending_callbacks` equals exactly the
number of callbacks whose return value was registered as a future —
coroutines and futures count, plain values and raising callbacks add
nothing. -/
theorem stop_invokes_all_and_counts_deferred (cbs : List ShutdownCallbackResult)
    (now limit wt : Int) (tasks : Bool) :
    (CallbackManager.stop cbs now limit wt tasks).1.invoked =
        List.range cbs.length ∧
      (CallbackManager.stop cbs now limit wt tasks).2.pending_callbacks =
        ((cbs.countP fun b => isDeferred b : Nat) : Int) := by
  constructor
  · rw [stop_trace_eq, run_shutdown_callbacks_invoked, List.range_eq_range']
  · have hpend : (CallbackManager.stop cbs now limit wt tasks).2.pending_callbacks =
        ((run_shutdown_callbacks 0 cbs).2.1 : Int) := by
      simp only [CallbackManager.stop]
      split
      · rw [on_shutdown_ready]
        unfold maybe_stop
        split <;> rfl
      · rfl
    rw [hpend, run_shutdown_callbacks_registered]

/-- C6, counterexample to the claim as stated: with zero shutdown
callbacks but the loop still reporting an outstanding task (and the
default `shutdown_limit = 5`, `wait_timeout = 1`, `now = 0`), `stop()`
returns without having invoked `io_loop.stop()` at all — a `_maybe_stop`
poll has been scheduled at time 1 instead — so the terminal action did
not fire synchronously. -/
theorem stop_without_callbacks_not_synchronous_cex :
    (CallbackManager.stop [] 0 5 1 true).2.stops = 0 ∧
      (CallbackManager.stop [] 0 5 1 true).2.timers = [1] := by
  decide

/-- C6 amended: with zero shutdown callbacks, `stop()` runs
`on_shutdown_ready` synchronously before returning and `pending_callbacks`
is 0 throughout; the loop's stop primitive fires synchronously exactly
when the loop reports no outstanding tasks or the deadline
(`now + shutdown_limit`) is not in the future — otherwise a `_maybe_stop`
poll is scheduled at `now + wait_timeout` and the stop fires only
later. -/
theorem stop_without_callbacks_amended (now limit wt : Int) (tasks : Bool) :
    (CallbackManager.stop [] now limit wt tasks).2.pending_callbacks = 0 ∧
      (if now < now + limit ∧ tasks = true then
        (CallbackManager.stop [] now limit wt tasks).2.stops = 0 ∧
          (CallbackManager.stop [] now limit wt tasks).2.timers = [now + wt]
      else
        (CallbackManager.stop [] now limit wt tasks).2.stops = 1 ∧
          (CallbackManager.stop [] now limit wt tasks).2.timers = []) := by
  constructor
  · simp [CallbackManager.stop, run_shutdown_callbacks, on_shutdown_ready,
      maybe_stop]
    split <;> rfl
  · by_cases hc : now < now + limit ∧ tasks = true
    · rw [if_pos hc]
      constructor <;>
        simp [CallbackManager.stop, run_shutdown_callbacks, on_shutdown_ready,
          maybe_stop, hc]
    · rw [if_neg hc]
      have hc2 : ¬(0 < limit ∧ tasks = true) := by
        simpa using hc
      constructor <;>
        simp [CallbackManager.stop, run_shutdown_callbacks, on_shutdown_ready,
          maybe_stop, hc2]

/-- C7: each dispatch of a scheduled `_maybe_stop` poll tick computes
`now`; when `now < deadline` and the loop still reports outstanding tasks
it schedules the next `_maybe_stop` exactly `wait_timeout` after `now`
and does not touch the stop primitive; otherwise it invokes
`io_loop.stop()` and schedules nothing. -/
theorem maybe_stop_poll_spec (s : WaiterState) (T d : Int) (tasks : Bool)
    (hT : T ∈ s.timers) (hd : s.deadline = some d) :
    (s.now < d ∧ tasks = true →
      (fire_timer s T d tasks).timers =
          s.timers.erase T ++ [s.now + s.wait_timeout] ∧
        (fire_timer s T d tasks).stops = s.stops) ∧
    (¬(s.now < d ∧ tasks = true) →
      (fire_timer s T d tasks).timers = s.timers.erase T ∧
        (fire_timer s T d tasks).stops = s.stops + 1) := by
  constructor
  · intro hc
    constructor <;> simp [fire_timer, maybe_stop, hc]
  · intro hc
    constructor <;> simp [fire_timer, maybe_stop, hc]

theorem maybe_stop_poll_spec_witness :
    (fire_timer ⟨0, some 5, 0, [3], 0, 3, 5, 1⟩ 3 5 true).timers = [4] ∧
      (fire_timer ⟨0, some 5, 0, [3], 0, 3, 5, 1⟩ 3 5 true).stops = 0 := by
  have h := maybe_stop_poll_spec ⟨0, some 5, 0, [3], 0, 3, 5, 1⟩ 3 5 true
    (by decide) rfl
  have h2 := h.1 (by constructor <;> decide)
  refine ⟨?_, h2.2⟩
  rw [h2.1]
  decide

/-! ## Theorems: Runner.run's before_run loop -/

theorem run_before_run_raise (i : Nat) (cbs : List BeforeRunResult) (k : Nat)
    (hk : cbs.get? k = some BeforeRunResult.raises)
    (hok : ∀ j, j < k → cbs.get? j = some BeforeRunResult.ok) :
    Runner.run_before_run i cbs =
      ⟨List.range' i (k + 1), some (i + k), true, some 70⟩ := by
  induction cbs generalizing i k with
  | nil => simp at hk
  | cons b rest ih =>
    cases k with
    | zero =>
      have hb : b = BeforeRunResult.raises := by simpa using hk
      subst hb
      simp [Runner.run_before_run, List.range'_succ]
    | succ k =>
      have hb : b = BeforeRunResult.ok := by
        have h0 := hok 0 (Nat.succ_pos k)
        simpa using h0
      subst hb
      have hk2 : rest.get? k = some BeforeRunResult.raises := by simpa using hk
      have hok2 : ∀ j, j < k → rest.get? j = some BeforeRunResult.ok := by
        intro j hj
        have hj1 := hok (j + 1) (by omega)
        simpa using hj1
      simp [Runner.run_before_run, ih (i + 1) k hk2 hok2, List.range'_succ]
      omega

theorem run_before_run_all_ok (i : Nat) (cbs : List BeforeRunResult)
    (hok : ∀ b ∈ cbs, b = BeforeRunResult.ok) :
    Runner.run_before_run i cbs =
      ⟨List.range' i cbs.length, none, false, none⟩ := by
  induction cbs generalizing i with
  | nil => simp [Runner.run_before_run]
  | cons b rest ih =>
    have hb : b = BeforeRunResult.ok := hok b (by simp)
    subst hb
    have hrest : ∀ x ∈ rest, x = BeforeRunResult.ok := fun x hx =>
      hok x (by simp [hx])
    simp [Runner.run_before_run, ih (i + 1) hrest, List.range'_succ]

/-- C4: for every `before_run` callback list, invocation is synchronous
and in registration order.  When no callback raises, all `N` callbacks
are invoked in order, no error is logged, `_shutdown()` does not run and
the run proceeds (no `sys.exit`).  When callback `k` raises (and none
before it does), callbacks `0..k` are exactly the ones invoked —
`k+1..N` never run — the failure is logged with the callback's identity,
`self._shutdown()` runs best-effort, and the process exits with status
70. -/
theorem before_run_order_and_exit_seventy :
    (∀ cbs : List BeforeRunResult, (∀ b ∈ cbs, b = BeforeRunResult.ok) →
        Runner.run_before_run 0 cbs =
          ⟨List.range cbs.length, none, false, none⟩) ∧
      ∀ (cbs : List BeforeRunResult) (k : Nat),
        cbs.get? k = some BeforeRunResult.raises →
        (∀ j, j < k → cbs.get? j = some BeforeRunResult.ok) →
        Runner.run_before_run 0 cbs =
          ⟨List.range (k + 1), some k, true, some 70⟩ := by
  constructor
  · intro cbs hok
    have h := run_before_run_all_ok 0 cbs hok
    simpa [List.range_eq_range'] using h
  · intro cbs k hk hok
    have h := run_before_run_raise 0 cbs k hk hok
    simpa [List.range_eq_range'] using h

theorem before_run_order_and_exit_seventy_witness :
    Runner.run_before_run 0 [BeforeRunResult.ok, BeforeRunResult.ok] =
        ⟨List.range 2, none, false, none⟩ ∧
      Runner.run_before_run 0
          [BeforeRunResult.ok, BeforeRunResult.raises, BeforeRunResult.ok] =
        ⟨List.range 2, some 1, true, some 70⟩ :=
  ⟨before_run_order_and_exit_seventy.1 [BeforeRunResult.ok, BeforeRunResult.ok]
      (by
        intro b hb
        simp only [List.mem_cons, List.not_mem_nil, or_false] at hb
        rcases hb with rfl | rfl <;> rfl),
    before_run_order_and_exit_seventy.2
      [BeforeRunResult.ok, BeforeRunResult.raises, BeforeRunResult.ok] 1 rfl
      (by
        intro j hj
        have hj0 : j = 0 := by omega
        subst hj0
        rfl)⟩

/-! ## Theorems: dictionaries and the heap -/

theorem dict_get_dict_set_self (d : PyDict) (k : String) (v : PyVal) :
    dict_get (dict_set d k v) k = some v := by
  induction d with
  | nil => simp [dict_set, dict_get]
  | cons p rest ih =>
    by_cases hp : p.1 = k
    · simp [dict_set, hp, dict_get]
    · simp [dict_set, hp, dict_get, ih]

theorem dict_get_dict_set_ne (d : PyDict) (k k0 : String) (v : PyVal)
    (h : k0 ≠ k) : dict_get (dict_set d k v) k0 = dict_get d k0 := by
  induction d with
  | nil => simp [dict_set, dict_get, Ne.symm h]
  | cons p rest ih =>
    by_cases hp : p.1 = k
    · simp [dict_set, hp, dict_get, Ne.symm h]
    · simp [dict_set, hp, dict_get, ih]

theorem dict_get_dict_erase_self (d : PyDict) (k : String) :
    dict_get (dict_erase d k) k = none := by
  induction d with
  | nil => simp [dict_erase, dict_get]
  | cons p rest ih =>
    by_cases hp : p.1 = k
    · simp [dict_erase, hp, ih]
    · simp [dict_erase, hp, dict_get, ih]

theorem dict_get_dict_erase_ne (d : PyDict) (k k0 : String) (h : k0 ≠ k) :
    dict_get (dict_erase d k) k0 = dict_get d k0 := by
  induction d with
  | nil => simp [dict_erase]
  | cons p rest ih =>
    by_cases hp : p.1 = k
    · simp [dict_erase, hp, dict_get, Ne.symm h, ih]
    · simp [dict_erase, hp, dict_get, ih]

theorem dict_get_dict_pop_self (d : PyDict) (k : String) (dflt : PyVal) :
    dict_get (dict_pop d k dflt).2 k = none := by
  unfold dict_pop
  cases hg : dict_get d k with
  | none => exact hg
  | some v => exact dict_get_dict_erase_self d k

theorem dict_get_dict_pop_ne (d : PyDict) (k k0 : String) (dflt : PyVal)
    (h : k0 ≠ k) : dict_get (dict_pop d k dflt).2 k0 = dict_get d k0 := by
  unfold dict_pop
  cases hg : dict_get d k with
  | none => rfl
  | some v => exact dict_get_dict_erase_ne d k k0 h

theorem Heap.read_alloc_lt (h : Heap) (d : PyDict) (r : Nat)
    (hr : r < h.dicts.length) : (h.alloc d).1.read r = h.read r := by
  simp [Heap.alloc, Heap.read, List.getElem?_append_left hr]

theorem Heap.read_alloc_self (h : Heap) (d : PyDict) :
    (h.alloc d).1.read (h.alloc d).2 = d := by
  simp [Heap.alloc, Heap.read, List.getD_append_right _ _ _ _ (le_refl _)]

theorem Heap.read_write_self (h : Heap) (r : Nat) (d : PyDict)
    (hr : r < h.dicts.length) : (h.write r d).read r = d := by
  simp [Heap.write, Heap.read, List.getElem?_set_eq_of_lt _ hr]

theorem Heap.read_write_ne (h : Heap) (r r2 : Nat) (d : PyDict)
    (hne : r ≠ r2) : (h.write r d).read r2 = h.read r2 := by
  simp [Heap.write, Heap.read, List.getElem?_set_ne hne]

theorem Heap.length_write (h : Heap) (r : Nat) (d : PyDict) :
    (h.write r d).dicts.length = h.dicts.length := by
  simp [Heap.write]

theorem Heap.read_write2_self (A : Heap) (L : Nat) (a b : PyDict)
    (h : L < A.dicts.length) : ((A.write L a).write L b).read L = b := by
  have h2 : L < (A.write L a).dicts.length := by
    rw [Heap.length_write]
    exact h
  exact Heap.read_write_self _ _ _ h2

theorem Heap.read_write3_self (A : Heap) (L : Nat) (a b c : PyDict)
    (h : L < A.dicts.length) :
    (((A.write L a).write L b).write L c).read L = c := by
  have h2 : L < ((A.write L a).write L b).dicts.length := by
    rw [Heap.length_write, Heap.length_write]
    exact h
  exact Heap.read_write_self _ _ _ h2

theorem kwargs_characterization (d0 : PyDict) (dm : Bool) (pd x : PyVal) :
    dict_get (dict_pop (dict_pop (dict_set d0 "debug" (PyVal.pyBool dm))
          "port" pd).2 "number_of_procs" x).2 "port" = none ∧
      dict_get (dict_pop (dict_pop (dict_set d0 "debug" (PyVal.pyBool dm))
          "port" pd).2 "number_of_procs" x).2 "number_of_procs" = none ∧
      dict_get (dict_pop (dict_pop (dict_set d0 "debug" (PyVal.pyBool dm))
          "port" pd).2 "number_of_procs" x).2 "debug" =
        some (PyVal.pyBool dm) ∧
      ∀ k, k ≠ "port" → k ≠ "number_of_procs" → k ≠ "debug" →
        dict_get (dict_pop (dict_pop (dict_set d0 "debug" (PyVal.pyBool dm))
            "port" pd).2 "number_of_procs" x).2 k = dict_get d0 k := by
  refine ⟨?_, ?_, ?_, ?_⟩
  · rw [dict_get_dict_pop_ne _ _ _ _ (by decide), dict_get_dict_pop_self]
  · rw [dict_get_dict_pop_self]
  · rw [dict_get_dict_pop_ne _ _ _ _ (by decide),
      dict_get_dict_pop_ne _ _ _ _ (by decide), dict_get_dict_set_self]
  · intro k hk1 hk2 hk3
    rw [dict_get_dict_pop_ne _ _ _ _ hk2, dict_get_dict_pop_ne _ _ _ _ hk1,
      dict_get_dict_set_ne _ _ _ _ hk3]

/-- C9: `sprockets.http.run` operates on a copy of the caller's settings
dict: after the call the object the caller passed is unchanged, and the
kwargs `create_application` receives (when it is reached) are that copy
with `port` and `number_of_procs` removed and `debug` forced to a
boolean; every other key is passed through untouched. -/
theorem run_settings_not_mutated (h0 : Heap) (r : Nat)
    (envD envP : Option String) (hr : r < h0.dicts.length) :
    (sprockets_http_run h0 (some r) envD envP).heap.read r = h0.read r ∧
      ∀ kw, (sprockets_http_run h0 (some r) envD envP).app_kwargs = some kw →
        dict_get kw "port" = none ∧
          dict_get kw "number_of_procs" = none ∧
          (∃ b, dict_get kw "debug" = some (PyVal.pyBool b)) ∧
          ∀ k, k ≠ "port" → k ≠ "number_of_procs" → k ≠ "debug" →
            dict_get kw k = dict_get (h0.read r) k := by
  have hne : h0.dicts.length ≠ r := (Nat.ne_of_lt hr).symm
  have hlt1 : h0.dicts.length < (h0.alloc (h0.read r)).1.dicts.length := by
    simp [Heap.alloc]
  have hread1 : (h0.alloc (h0.read r)).1.read r = h0.read r :=
    Heap.read_alloc_lt h0 _ r hr
  have hread1a : (h0.alloc (h0.read r)).1.read (h0.dicts.length) = h0.read r :=
    Heap.read_alloc_self h0 _
  have halloc2 : (h0.alloc (h0.read r)).2 = h0.dicts.length := rfl
  unfold sprockets_http_run
  simp only []
  rw [halloc2]
  split
  · exact ⟨hread1, fun kw hkw => by cases hkw⟩
  · rw [hread1a]
    rw [Heap.read_write_self _ _ _ hlt1]
    rw [Heap.read_write2_self _ _ _ _ hlt1]
    rw [Heap.read_write3_self _ _ _ _ _ hlt1]
    split
    · constructor
      · rw [Heap.read_write_ne _ _ _ _ hne, Heap.read_write_ne _ _ _ _ hne,
          hread1]
      · intro kw hkw
        cases hkw
    · split
      · constructor
        · rw [Heap.read_write_ne _ _ _ _ hne, Heap.read_write_ne _ _ _ _ hne,
            Heap.read_write_ne _ _ _ _ hne, hread1]
        · intro kw hkw
          cases hkw
      · constructor
        · rw [Heap.read_write_ne _ _ _ _ hne, Heap.read_write_ne _ _ _ _ hne,
            Heap.read_write_ne _ _ _ _ hne, hread1]
        · intro kw hkw
          cases hkw
          exact ⟨(kwargs_characterization (h0.read r) _ _ _).1,
            (kwargs_characterization (h0.read r) _ _ _).2.1,
            ⟨_, (kwargs_characterization (h0.read r) _ _ _).2.2.1⟩,
            (kwargs_characterization (h0.read r) _ _ _).2.2.2⟩

theorem run_settings_not_mutated_witness :
    (sprockets_http_run sample_settings_heap (some 0) none none).heap.read 0 =
        sample_settings_heap.read 0 ∧
      ∀ kw, (sprockets_http_run sample_settings_heap (some 0) none none).app_kwargs =
          some kw →
        dict_get kw "port" = none ∧
          dict_get kw "number_of_procs" = none ∧
          (∃ b, dict_get kw "debug" = some (PyVal.pyBool b)) ∧
          ∀ k, k ≠ "port" → k ≠ "number_of_procs" → k ≠ "debug" →
            dict_get kw k = dict_get (sample_settings_heap.read 0) k :=
  run_settings_not_mutated sample_settings_heap 0 none none (by decide)

/-! ## Theorems: Runner construction and the ReadinessGate -/

theorem cb_get_append_of_some {d : CallbackDict} {k : String} {v : List Nat}
    (h : cb_get d k = some v) (e : CallbackDict) :
    cb_get (d ++ e) k = some v := by
  induction d with
  | nil => simp [cb_get] at h
  | cons p rest ih =>
    by_cases hp : p.1 = k
    · simp [cb_get, hp] at h ⊢
      exact h
    · simp [cb_get, hp] at h ⊢
      exact ih h

theorem cb_get_setdefault_of_some {d : CallbackDict} {k0 k : String}
    {v w : List Nat} (h : cb_get d k0 = some w) :
    cb_get (cb_setdefault d k v) k0 = some w := by
  unfold cb_setdefault
  cases hg : cb_get d k with
  | some u => exact h
  | none => exact cb_get_append_of_some h _

/-- C10: when the application's `runner_callbacks` dict already binds
`before_run`, `on_start` or `shutdown`, `Runner.__init__`'s `setdefault`
leaves the existing list in place and the constructor argument is
silently ignored; when the application has no `runner_callbacks`
attribute at all, a fresh dict holding exactly the three phase keys
(each the argument or `[]`) is attached. -/
theorem runner_init_callbacks_spec (d : CallbackDict)
    (b o sd : Option (List Nat)) (v : List Nat) :
    ((cb_get d "before_run" = some v →
        cb_get (Runner.init_callbacks (some d) b o sd) "before_run" = some v) ∧
      (cb_get d "on_start" = some v →
        cb_get (Runner.init_callbacks (some d) b o sd) "on_start" = some v) ∧
      (cb_get d "shutdown" = some v →
        cb_get (Runner.init_callbacks (some d) b o sd) "shutdown" = some v)) ∧
    Runner.init_callbacks none b o sd =
      [("before_run", b.getD []), ("on_start", o.getD []),
       ("shutdown", sd.getD [])] := by
  refine ⟨⟨fun h => ?_, fun h => ?_, fun h => ?_⟩, rfl⟩ <;>
    exact cb_get_setdefault_of_some (cb_get_setdefault_of_some
      (cb_get_setdefault_of_some h))

/-- C8: a request dispatched while the ReadinessGate is not set receives
the fixed unavailable response — status 503, empty body — without
reaching application routing; once the gate is set the request reaches
normal routing; the gate is cleared when shutdown starts and set once
the post-start callbacks have been scheduled, immediately when there are
none.  (The gate is modelled from the spec: it is not code under src/.) -/
theorem readiness_gate_spec (g : ReadinessGate) (rs : Nat) (rb : String)
    (cbs : List Nat) :
    (g.isSet = false →
        dispatch_request g rs rb = ⟨503, "", false⟩) ∧
      (g.isSet = true →
        dispatch_request g rs rb = ⟨rs, rb, true⟩) ∧
      (begin_shutdown g).isSet = false ∧
      (schedule_post_start g cbs).1.isSet = true ∧
      (schedule_post_start g []).1.isSet = true := by
  refine ⟨fun h => ?_, fun h => ?_, rfl, rfl, rfl⟩ <;>
    simp [dispatch_request, h]

end SprocketsHttp
